import Mathlib

/-!
Verification of the syntactic front end of `ikasoba/holo`: the token stream
(`src/compile/stream/token-stream.ts`) and the Pratt / recursive-descent
parser (`src/syntax/parse.ts`).

The embedding is shallow: TypeScript classes become structures, methods
become pure functions (mutation of the cursor becomes returning a new
stream value), thrown exceptions become an error result, and the
unboundedly recursive parser takes an explicit fuel argument (a `fuelOut`
result means the fuel ran out, i.e. the source program would still be
running).
-/

namespace Holo

/-- Token kinds.  The defining file `src/syntax/token.ts` is absent from the
sources; the constructor set is modelled from the spec's input contract
(§6: end-of-stream, identifier, number-literal, keywords, punctuation and
operators) and from the members referenced by `parse.ts` and
`token-stream.ts`. -/
inductive TokenKind where
  | EOF
  | Identifier
  | NumberLiteral
  | Fn
  | Var
  | If
  | Else
  | While
  | Do
  | OpenParen
  | CloseParen
  | OpenBrace
  | CloseBrace
  | OpenBracket
  | CloseBracket
  | Comma
  | SemiColon
  | Eq
  | Not
  | Plus
  | Minus
  | Asterisk
  | Slash
  | Percent
  | Lt
  | Lte
  | Gt
  | Gte
  | Eq2
  | NotEq
  | And2
  | Or2
  deriving DecidableEq, Repr

/-- The reverse enum mapping `TokenKind[k]` used in error messages. -/
def tokenKindName : TokenKind → String
  | .EOF => "EOF"
  | .Identifier => "Identifier"
  | .NumberLiteral => "NumberLiteral"
  | .Fn => "Fn"
  | .Var => "Var"
  | .If => "If"
  | .Else => "Else"
  | .While => "While"
  | .Do => "Do"
  | .OpenParen => "OpenParen"
  | .CloseParen => "CloseParen"
  | .OpenBrace => "OpenBrace"
  | .CloseBrace => "CloseBrace"
  | .OpenBracket => "OpenBracket"
  | .CloseBracket => "CloseBracket"
  | .Comma => "Comma"
  | .SemiColon => "SemiColon"
  | .Eq => "Eq"
  | .Not => "Not"
  | .Plus => "Plus"
  | .Minus => "Minus"
  | .Asterisk => "Asterisk"
  | .Slash => "Slash"
  | .Percent => "Percent"
  | .Lt => "Lt"
  | .Lte => "Lte"
  | .Gt => "Gt"
  | .Gte => "Gte"
  | .Eq2 => "Eq2"
  | .NotEq => "NotEq"
  | .And2 => "And2"
  | .Or2 => "Or2"

/-- Source location `{line, column}`; the EndOfStream sentinel uses
`{line: -1, column: -1}`, hence `Int`. -/
structure Loc where
  line : Int
  column : Int
  deriving DecidableEq, Repr

/-- A lexical token: kind, optional text payload, location. -/
structure Token where
  kind : TokenKind
  value : Option String
  loc : Loc
  deriving DecidableEq, Repr

/-- The `TOKEN(kind, loc)` constructor used for the EndOfStream sentinel. -/
def TOKEN (kind : TokenKind) (loc : Loc) : Token :=
  { kind := kind, value := none, loc := loc }

/-- Errors thrown by the front end.
`synError` is the value built by `error(message, loc)` from
`src/compile/util/error.ts`.  Modelled from the spec: that file is absent
from the sources; per spec §7 it is the single syntax-error kind carrying a
human-readable message and the offending location.
`plainError` is a bare `throw new Error(message)` (as in `parseAtom`'s
default branch and `parseStep`), carrying only a message. -/
inductive PErr where
  | synError (message : String) (loc : Loc)
  | plainError (message : String)
  deriving DecidableEq, Repr

/-- `error(message, loc)` from `src/compile/util/error.ts`.  Modelled from
the spec (§7): builds the single syntax-error kind from message and
location. -/
def error (message : String) (loc : Loc) : PErr :=
  .synError message loc

/-- `TokenStream` (src/compile/stream/token-stream.ts): the token sequence
and a cursor index.  The class also caches the current token in a private
`_token` field, reloaded on construction and after every `next()`; since
the cache always equals `source[index]` whenever it is read with the
cursor in range, the embedding reads `source` directly. -/
structure TokenStream where
  source : List Token
  index : Nat
  deriving DecidableEq, Repr

/-- The EndOfStream sentinel `TOKEN(TokenKind.EOF, {line: -1, column: -1})`. -/
def eofToken : Token := TOKEN .EOF { line := -1, column := -1 }

namespace TokenStream

/-- `private get eof()`: whether the cursor is at or past the end. -/
def eof (s : TokenStream) : Prop := s.source.length ≤ s.index

instance (s : TokenStream) : Decidable s.eof := by
  unfold eof; infer_instance

/-- `getToken()`: the token at the cursor, or the EndOfStream sentinel. -/
def getToken (s : TokenStream) : Token :=
  if s.index < s.source.length then s.source.getD s.index eofToken
  else eofToken

/-- `getKind()`: kind of the current token. -/
def getKind (s : TokenStream) : TokenKind :=
  s.getToken.kind

/-- `next()`: advance the cursor by one unless already at the end. -/
def next (s : TokenStream) : TokenStream :=
  if s.index < s.source.length then { s with index := s.index + 1 }
  else s

/-- `lookahead(offset)`: the token `offset` positions ahead of the cursor,
or the EndOfStream sentinel when out of range; the cursor is untouched. -/
def lookahead (s : TokenStream) (offset : Nat) : Token :=
  if s.index + offset < s.source.length then
    s.source.getD (s.index + offset) eofToken
  else eofToken

/-- `expect(kind)`: error unless the current token has the given kind. -/
def expect (s : TokenStream) (kind : TokenKind) : Except PErr Unit :=
  if s.getKind ≠ kind then
    .error (error ("unexpected token: " ++ tokenKindName s.getKind) s.getToken.loc)
  else .ok ()

/-- `nextWith(kind)`: `expect(kind)` then `next()`. -/
def nextWith (s : TokenStream) (kind : TokenKind) : Except PErr TokenStream :=
  match s.expect kind with
  | .error e => .error e
  | .ok _ => .ok s.next

end TokenStream

/-- Result of a parsing step: a value and the stream after it, an error
(thrown exception), or exhausted fuel. -/
inductive PRes (α : Type) where
  | ok (a : α) (s : TokenStream)
  | err (e : PErr)
  | fuelOut

/-- Sequencing: run the continuation on an `ok` result, propagate the rest.
This is the shallow image of `;` between statements of the TypeScript
methods, where a thrown exception aborts the rest. -/
def pbind {α β : Type} (r : PRes α) (f : α → TokenStream → PRes β) : PRes β :=
  match r with
  | .ok a s => f a s
  | .err e => .err e
  | .fuelOut => .fuelOut

/-- `s.nextWith(kind)` as a parsing step. -/
def nextWithR (kind : TokenKind) (s : TokenStream) : PRes Unit :=
  match s.nextWith kind with
  | .error e => .err e
  | .ok s' => .ok () s'

/-- `s.expect(kind)` as a parsing step (no cursor movement). -/
def expectR (kind : TokenKind) (s : TokenStream) : PRes Unit :=
  match s.expect kind with
  | .error e => .err e
  | .ok _ => .ok () s

/-- `s.lookahead(k)` as a parsing step, to state that the method returns a
token while leaving every part of the stream state unchanged. -/
def lookaheadR (offset : Nat) (s : TokenStream) : PRes Token :=
  .ok (s.lookahead offset) s

/-- `BinaryMode` from `src/syntax/node.ts` (file absent; modelled from the
spec §3 and the switch in `parseInfix`). -/
inductive BinaryMode where
  | mul | div | rem | add | sub | lt | lte | gt | gte | eq | neq | and | or
  deriving DecidableEq, Repr

/-- `UnaryMode` from `src/syntax/node.ts` (file absent; modelled from the
spec §3 and the switch in `parsePrefix`). -/
inductive UnaryMode where
  | not | plus | minus
  deriving DecidableEq, Repr

/- AST nodes built by the expression grammar.  `src/syntax/node.ts` is
absent from the sources; the shapes are modelled from the spec §3 and the
constructor calls in `parse.ts`.  `numberLiteral` keeps the literal's
source text (the TypeScript code converts it with `Number(source)`; the
IEEE-754 value plays no role in any property here).  A `Step` is the
TypeScript union `Statement | Expression`. -/
mutual
inductive Expression where
  | numberLiteral (value : String) (loc : Loc)
  | reference (name : String) (loc : Loc)
  | binary (mode : BinaryMode) (left : Expression) (right : Expression) (loc : Loc)
  | unary (mode : UnaryMode) (expr : Expression) (loc : Loc)
  | ifExpr (cond : Expression) (thenBlock : Block) (elseBlock : Option Block) (loc : Loc)
inductive Block where
  | mk (steps : List Step) (loc : Loc)
inductive Step where
  | stmt (s : Statement)
  | expr (e : Expression)
inductive Statement where
  | assign (target : String) (value : Expression) (loc : Loc)
  | whileStmt (mode : Bool) (cond : Expression) (body : List Step) (loc : Loc)
end

/-- A top-level declaration (`FunctionDecl` or `VariableDecl` node). -/
inductive Decl where
  | functionDecl (name : String) (params : List String) (body : List Step) (loc : Loc)
  | variableDecl (name : String) (body : Option Expression) (loc : Loc)

/-- The `Unit` AST node: the ordered top-level declarations. -/
structure UnitNode where
  decls : List Decl
  loc : Loc

/-- Operator-table entries (`OpInfo` in `parse.ts`): `pre`, `inf`, `post`
are the `prefix`, `infix`, `postfix` shapes. -/
inductive OpInfo where
  | pre (token : TokenKind) (bp : Nat)
  | inf (token : TokenKind) (lbp : Nat) (rbp : Nat)
  | post (token : TokenKind) (bp : Nat)
  deriving DecidableEq, Repr

/-- The static operator table `operators` of `parse.ts`, entry for entry in
source order. -/
def operators : List OpInfo := [
  .post .OpenParen 90,
  .post .OpenBracket 90,
  .pre .Not 80,
  .pre .Plus 80,
  .pre .Minus 80,
  .inf .Asterisk 70 71,
  .inf .Slash 70 71,
  .inf .Percent 70 71,
  .inf .Plus 60 61,
  .inf .Minus 60 61,
  .inf .Lt 50 51,
  .inf .Lte 50 51,
  .inf .Gt 50 51,
  .inf .Gte 50 51,
  .inf .Eq2 40 41,
  .inf .NotEq 40 41,
  .inf .And2 30 31,
  .inf .Or2 20 21
]

/-- The `switch (info.token)` of `parseInfix` mapping the operator token to
its `BinaryMode`.  The TypeScript switch is exhaustive over the
`InfixToken` union; the catch-all here is unreachable for table entries. -/
def toBinaryMode : TokenKind → BinaryMode
  | .Asterisk => .mul
  | .Slash => .div
  | .Percent => .rem
  | .Plus => .add
  | .Minus => .sub
  | .Lt => .lt
  | .Lte => .lte
  | .Gt => .gt
  | .Gte => .gte
  | .Eq2 => .eq
  | .NotEq => .neq
  | .And2 => .and
  | _ => .or

/-- The `switch (info.token)` of `parsePrefix` mapping the operator token
to its `UnaryMode`; the catch-all is unreachable for table entries. -/
def toUnaryMode : TokenKind → UnaryMode
  | .Plus => .plus
  | .Minus => .minus
  | _ => .not

/- The parser of `parse.ts`, one Lean function per TypeScript function,
with `parsePre`/`parseInf` embedding `parsePrefix`/`parseInfix` and
`prattLoop`/`blockLoop` the `while` loops of `parsePratt`/`parseBlock`.
Every function consumes one unit of fuel on entry. -/
mutual

/-- `parseExpr(s)`: `parsePratt(s, 0)`. -/
def parseExpr : Nat → TokenStream → PRes Expression
  | 0, _ => .fuelOut
  | fuel + 1, s => parsePratt fuel 0 s
termination_by structural fuel => fuel

/-- `parsePratt(s, minBp)`: prefix operator or atom, then the infix loop. -/
def parsePratt : Nat → Nat → TokenStream → PRes Expression
  | 0, _, _ => .fuelOut
  | fuel + 1, minBp, s =>
    let kind := s.getKind
    match operators.find? (fun x => match x with | .pre t _ => t == kind | _ => false) with
    | some (.pre t bp) => pbind (parsePre fuel t bp s) (fun left s => prattLoop fuel minBp left s)
    | _ => pbind (parseAtom fuel s) (fun left s => prattLoop fuel minBp left s)
termination_by structural fuel => fuel

/-- The `while (true)` loop of `parsePratt` (the postfix branch is
commented out in the source): fold infix operators whose left binding
power is at least `minBp`. -/
def prattLoop : Nat → Nat → Expression → TokenStream → PRes Expression
  | 0, _, _, _ => .fuelOut
  | fuel + 1, minBp, left, s =>
    let kind := s.getKind
    match operators.find? (fun x => match x with | .inf t _ _ => t == kind | _ => false) with
    | some (.inf t lbp rbp) =>
      if lbp < minBp then .ok left s
      else pbind (parseInf fuel t rbp left s) (fun left' s => prattLoop fuel minBp left' s)
    | _ => .ok left s
termination_by structural fuel => fuel

/-- `parsePrefix(s, info)`: consume the operator, parse the operand at the
operator's binding power, wrap in a `Unary` node. -/
def parsePre : Nat → TokenKind → Nat → TokenStream → PRes Expression
  | 0, _, _, _ => .fuelOut
  | fuel + 1, token, bp, s =>
    let loc := s.getToken.loc
    let s := s.next
    pbind (parsePratt fuel bp s) (fun right s => .ok (.unary (toUnaryMode token) right loc) s)
termination_by structural fuel => fuel

/-- `parseInfix(s, left, info)`: consume the operator, parse the right
operand at the operator's right binding power, build a `Binary` node. -/
def parseInf : Nat → TokenKind → Nat → Expression → TokenStream → PRes Expression
  | 0, _, _, _, _ => .fuelOut
  | fuel + 1, token, rbp, left, s =>
    let loc := s.getToken.loc
    let s := s.next
    pbind (parsePratt fuel rbp s) (fun right s => .ok (.binary (toBinaryMode token) left right loc) s)
termination_by structural fuel => fuel

/-- `parseAtom(s)`: number literal, identifier, if-expression, or
parenthesized expression; anything else throws a plain
`Error("unexpected token: " + kind)` (no location). -/
def parseAtom : Nat → TokenStream → PRes Expression
  | 0, _ => .fuelOut
  | fuel + 1, s =>
    let loc := s.getToken.loc
    match s.getKind with
    | .NumberLiteral =>
      let source := s.getToken.value.getD ""
      let s := s.next
      .ok (.numberLiteral source loc) s
    | .Identifier =>
      let name := s.getToken.value.getD ""
      let s := s.next
      .ok (.reference name loc) s
    | .If => parseIf fuel s
    | .OpenParen =>
      let s := s.next
      pbind (parseExpr fuel s) (fun expr s =>
        pbind (nextWithR .CloseParen s) (fun _ s => .ok expr s))
    | k => .err (.plainError ("unexpected token: " ++ tokenKindName k))
termination_by structural fuel => fuel

/-- `parseIf(s)`: `if` `(`cond`)` block, optional `else` block. -/
def parseIf : Nat → TokenStream → PRes Expression
  | 0, _ => .fuelOut
  | fuel + 1, s =>
    let loc := s.getToken.loc
    pbind (nextWithR .If s) (fun _ s =>
    pbind (parseCond fuel s) (fun cond s =>
    let thenLoc := s.getToken.loc
    pbind (parseBlock fuel s) (fun thenSteps s =>
    let thenBlock := Block.mk thenSteps thenLoc
    if s.getKind == .Else then
      let elseLoc := s.getToken.loc
      let s := s.next
      pbind (parseBlock fuel s) (fun elseSteps s =>
        .ok (.ifExpr cond thenBlock (some (Block.mk elseSteps elseLoc)) loc) s)
    else
      .ok (.ifExpr cond thenBlock none loc) s)))
termination_by structural fuel => fuel

/-- `parseCond(s)`: `(` expression `)`. -/
def parseCond : Nat → TokenStream → PRes Expression
  | 0, _ => .fuelOut
  | fuel + 1, s =>
    pbind (nextWithR .OpenParen s) (fun _ s =>
    pbind (parseExpr fuel s) (fun expr s =>
    pbind (nextWithR .CloseParen s) (fun _ s => .ok expr s)))
termination_by structural fuel => fuel

/-- `parseBlock(s)`: `{` steps `}` (returns the raw step list). -/
def parseBlock : Nat → TokenStream → PRes (List Step)
  | 0, _ => .fuelOut
  | fuel + 1, s =>
    pbind (nextWithR .OpenBrace s) (fun _ s =>
    pbind (blockLoop fuel [] s) (fun steps s =>
    pbind (nextWithR .CloseBrace s) (fun _ s => .ok steps s)))

/-- The `while (getKind() != CloseBrace)` loop of `parseBlock`. -/
def blockLoop : Nat → List Step → TokenStream → PRes (List Step)
  | 0, _, _ => .fuelOut
  | fuel + 1, steps, s =>
    if s.getKind == .CloseBrace then .ok steps s
    else pbind (parseStep fuel s) (fun st s => blockLoop fuel (steps ++ [st]) s)
termination_by structural fuel => fuel

/-- `parseStep(s)`: unimplemented in the source — `throw new Error('todo')`. -/
def parseStep : Nat → TokenStream → PRes Step
  | _, _ => .err (.plainError "todo")

end

/-- The `while (getKind() != CloseParen)` loop of `parseParams`. -/
def paramsLoop : Nat → List String → TokenStream → PRes (List String)
  | 0, _, _ => .fuelOut
  | fuel + 1, items, s =>
    if s.getKind == .CloseParen then .ok items s
    else
      pbind (if items.length > 0 then nextWithR .Comma s else .ok () s) (fun _ s =>
      pbind (expectR .Identifier s) (fun _ s =>
      let name := s.getToken.value.getD ""
      let s := s.next
      paramsLoop fuel (items ++ [name]) s))
termination_by structural fuel => fuel

/-- `parseParams(s)`: `(` comma-separated identifiers `)`. -/
def parseParams : Nat → TokenStream → PRes (List String)
  | 0, _ => .fuelOut
  | fuel + 1, s =>
    pbind (nextWithR .OpenParen s) (fun _ s =>
    pbind (paramsLoop fuel [] s) (fun items s =>
    pbind (nextWithR .CloseParen s) (fun _ s => .ok items s)))

/-- `parseFunctionDecl(s)`: `fn` name `(`params`)` block. -/
def parseFunctionDecl : Nat → TokenStream → PRes Decl
  | 0, _ => .fuelOut
  | fuel + 1, s =>
    let loc := s.getToken.loc
    pbind (nextWithR .Fn s) (fun _ s =>
    pbind (expectR .Identifier s) (fun _ s =>
    let name := s.getToken.value.getD ""
    let s := s.next
    pbind (parseParams fuel s) (fun params s =>
    pbind (parseBlock fuel s) (fun body s =>
    .ok (.functionDecl name params body loc) s))))

/-- `parseVariableDecl(s)`: `var` name optionally `=` expression, `;`. -/
def parseVariableDecl : Nat → TokenStream → PRes Decl
  | 0, _ => .fuelOut
  | fuel + 1, s =>
    let loc := s.getToken.loc
    pbind (nextWithR .Var s) (fun _ s =>
    pbind (expectR .Identifier s) (fun _ s =>
    let name := s.getToken.value.getD ""
    let s := s.next
    pbind (if s.getKind == .Eq then
             pbind (parseExpr fuel s.next) (fun e s => .ok (some e) s)
           else .ok none s) (fun body s =>
    pbind (nextWithR .SemiColon s) (fun _ s =>
    .ok (.variableDecl name body loc) s))))

/-- The `while (getKind() != EOF)` loop of the top-level `parse`: a `fn`
token starts a function declaration, a `var` token a variable declaration;
any other kind falls through the `switch` without consuming anything. -/
def unitLoop : Nat → List Decl → TokenStream → PRes UnitNode
  | 0, _, _ => .fuelOut
  | fuel + 1, decls, s =>
    if s.getKind == .EOF then .ok { decls := decls, loc := { line := 1, column := 1 } } s
    else
      match s.getKind with
      | .Fn => pbind (parseFunctionDecl fuel s) (fun d s => unitLoop fuel (decls ++ [d]) s)
      | .Var => pbind (parseVariableDecl fuel s) (fun d s => unitLoop fuel (decls ++ [d]) s)
      | _ => unitLoop fuel decls s
termination_by structural fuel => fuel

/-- The exported `parse`.  In the source it first builds a `Scanner` over
the input text; lexing is out of scope per the spec (§1), so the embedding
takes the token stream the parser drives directly. -/
def parse (fuel : Nat) (s : TokenStream) : PRes UnitNode :=
  unitLoop fuel [] s

/-- A fresh stream over a token list (cursor at 0, as constructed). -/
def mkStream (toks : List Token) : TokenStream :=
  { source := toks, index := 0 }

/-! Helpers for stating the claims. -/

/-- A value-only token at line 1 and the given column. -/
def tkAt (k : TokenKind) (col : Int) : Token :=
  { kind := k, value := none, loc := { line := 1, column := col } }

/-- An identifier token at line 1 and the given column. -/
def identAt (name : String) (col : Int) : Token :=
  { kind := .Identifier, value := some name, loc := { line := 1, column := col } }

/-- The binary-operator tokens of the operator table, in table order. -/
def binOpTokens : List TokenKind :=
  operators.filterMap (fun x => match x with | .inf t _ _ => some t | _ => none)

/-- The unary-operator tokens of the operator table, in table order. -/
def unOpTokens : List TokenKind :=
  operators.filterMap (fun x => match x with | .pre t _ => some t | _ => none)

/-- Left binding power of a binary-operator token, per the table lookup
the parser itself performs. -/
def lbpOf (k : TokenKind) : Nat :=
  match operators.find? (fun x => match x with | .inf t _ _ => t == k | _ => false) with
  | some (.inf _ lbp _) => lbp
  | _ => 0

/-- The token sequence `a OP1 b OP2 c` (line 1, columns 1-5). -/
def seqInfix (op1 op2 : TokenKind) : List Token :=
  [identAt "a" 1, tkAt op1 2, identAt "b" 3, tkAt op2 4, identAt "c" 5]

/-- The token sequence `U a OP b` (line 1, columns 1-4). -/
def seqPrefixed (u op : TokenKind) : List Token :=
  [tkAt u 1, identAt "a" 2, tkAt op 3, identAt "b" 4]

/-- The tree `Binary(OP2, Binary(OP1, a, b), c)` — `a OP1 b` grouped first. -/
def groupLeft (op1 op2 : TokenKind) : Expression :=
  .binary (toBinaryMode op2)
    (.binary (toBinaryMode op1)
      (.reference "a" { line := 1, column := 1 })
      (.reference "b" { line := 1, column := 3 })
      { line := 1, column := 2 })
    (.reference "c" { line := 1, column := 5 })
    { line := 1, column := 4 }

/-- The tree `Binary(OP1, a, Binary(OP2, b, c))` — `b OP2 c` grouped first
(operand positions as in `seqInfix op1 op2`). -/
def groupRight (op1 op2 : TokenKind) : Expression :=
  .binary (toBinaryMode op1)
    (.reference "a" { line := 1, column := 1 })
    (.binary (toBinaryMode op2)
      (.reference "b" { line := 1, column := 3 })
      (.reference "c" { line := 1, column := 5 })
      { line := 1, column := 4 })
    { line := 1, column := 2 }

/-- The expression an expression-parse result carries, if it succeeded. -/
def exprOf : PRes Expression → Option Expression
  | .ok e _ => some e
  | _ => none

/-- Whether a parse result is a failure of the syntax-error kind (the one
built by `error(message, loc)`). -/
def isSynErr {α : Type} : PRes α → Bool
  | .err (.synError _ _) => true
  | _ => false

/-- Tokens for `fn add(a, b) { var x = a + b; }` (line 1, columns 1-17). -/
def addTokens : List Token :=
  [tkAt .Fn 1, identAt "add" 2, tkAt .OpenParen 3, identAt "a" 4, tkAt .Comma 5,
   identAt "b" 6, tkAt .CloseParen 7, tkAt .OpenBrace 8, tkAt .Var 9, identAt "x" 10,
   tkAt .Eq 11, identAt "a" 12, tkAt .Plus 13, identAt "b" 14, tkAt .SemiColon 15,
   tkAt .CloseBrace 16, tkAt .EOF 17]

/-! The claims. -/

set_option maxHeartbeats 4000000 in
set_option maxRecDepth 10000 in
/-- C1: for every pair of binary-operator tokens in the table where OP1's
left binding power is strictly higher than OP2's, `a OP1 b OP2 c` parses to
`Binary(OP2, Binary(OP1, a, b), c)` and `a OP2 b OP1 c` parses to
`Binary(OP2, a, Binary(OP1, b, c))`. -/
theorem binop_precedence_pairs :
    ∀ op1 ∈ binOpTokens, ∀ op2 ∈ binOpTokens, lbpOf op2 < lbpOf op1 →
      exprOf (parseExpr 25 (mkStream (seqInfix op1 op2))) = some (groupLeft op1 op2) ∧
      exprOf (parseExpr 25 (mkStream (seqInfix op2 op1))) = some (groupRight op2 op1) := by
  intro op1 h1 op2 h2
  fin_cases h1 <;> fin_cases h2 <;> intro h <;>
    first
      | exact ⟨rfl, rfl⟩
      | exact absurd h (by decide)

/-- C1 witness: OP1 = `*` (70), OP2 = `+` (60). -/
theorem binop_precedence_pairs_witness :
    exprOf (parseExpr 25 (mkStream (seqInfix .Asterisk .Plus))) =
      some (groupLeft .Asterisk .Plus) ∧
    exprOf (parseExpr 25 (mkStream (seqInfix .Plus .Asterisk))) =
      some (groupRight .Plus .Asterisk) :=
  binop_precedence_pairs .Asterisk (by decide) .Plus (by decide) (by decide)

set_option maxHeartbeats 1000000 in
set_option maxRecDepth 10000 in
/-- C2: every binary operator in the table is left-associative:
`a OP b OP c` parses to `Binary(OP, Binary(OP, a, b), c)`, which is a
different tree from `Binary(OP, a, Binary(OP, b, c))`. -/
theorem binop_left_assoc :
    ∀ op ∈ binOpTokens,
      exprOf (parseExpr 25 (mkStream (seqInfix op op))) = some (groupLeft op op) ∧
      groupLeft op op ≠ groupRight op op := by
  intro op h1
  fin_cases h1 <;> exact ⟨rfl, by simp [groupLeft, groupRight]⟩

/-- C2 witness: `a - b - c` parses as `(a - b) - c`. -/
theorem binop_left_assoc_witness :
    exprOf (parseExpr 25 (mkStream (seqInfix .Minus .Minus))) =
      some (groupLeft .Minus .Minus) ∧
    groupLeft .Minus .Minus ≠ groupRight .Minus .Minus :=
  binop_left_assoc .Minus (by decide)

set_option maxHeartbeats 1000000 in
set_option maxRecDepth 10000 in
/-- C3: every unary-operator token binds tighter than every binary
operator: `U a OP b` parses to `Binary(OP, Unary(U, a), b)`. -/
theorem unary_binds_tighter :
    ∀ u ∈ unOpTokens, ∀ op ∈ binOpTokens,
      exprOf (parseExpr 25 (mkStream (seqPrefixed u op))) =
        some (.binary (toBinaryMode op)
          (.unary (toUnaryMode u) (.reference "a" { line := 1, column := 2 })
            { line := 1, column := 1 })
          (.reference "b" { line := 1, column := 4 })
          { line := 1, column := 3 }) := by
  intro u hu op hop
  fin_cases hu <;> fin_cases hop <;> rfl

/-- C3 witness: `-a * b` parses as `(-a) * b`. -/
theorem unary_binds_tighter_witness :
    exprOf (parseExpr 25 (mkStream (seqPrefixed .Minus .Asterisk))) =
      some (.binary (toBinaryMode .Asterisk)
        (.unary (toUnaryMode .Minus) (.reference "a" { line := 1, column := 2 })
          { line := 1, column := 1 })
        (.reference "b" { line := 1, column := 4 })
        { line := 1, column := 3 }) :=
  unary_binds_tighter .Minus (by decide) .Asterisk (by decide)

/-- C4: refutation of "the top-level parse skips a token that is neither
`fn` nor `var` and continues with the tokens after it".  The `while` loop
of `parse` never advances the cursor in the default `switch` path, so on a
stray top-level token the loop re-inspects the same token forever: no
amount of fuel makes the parse return. -/
theorem toplevel_stray_token_never_terminates :
    ∀ fuel : Nat, parse fuel (mkStream [identAt "x" 1]) = .fuelOut := by
  intro fuel
  induction fuel with
  | zero => rfl
  | succ f ih => exact ih

/-- C5 counterexample: the atom production's failure on a token that
starts no valid production is a plain `Error` carrying only a message —
not the syntax-error kind, and without the token's source location. -/
theorem atom_error_is_plain :
    isSynErr (parseAtom 5 (mkStream [tkAt .Comma 1])) = false ∧
    parseAtom 5 (mkStream [tkAt .Comma 1]) =
      .err (.plainError "unexpected token: Comma") :=
  ⟨rfl, rfl⟩

/-- C5 amended: `expect`/`nextWith` mismatches raise the single
syntax-error kind carrying a message with the unexpected token's kind and
its source location; but the atom production's fallback and the
unimplemented `parseStep` throw plain `Error`s carrying only a message
(the token kind for the former, `todo` for the latter) and no location. -/
theorem error_kinds_amended (st : TokenStream) (k : TokenKind)
    (h : st.getKind ≠ k) :
    st.expect k =
      .error (.synError ("unexpected token: " ++ tokenKindName st.getKind)
        st.getToken.loc) ∧
    st.nextWith k =
      .error (.synError ("unexpected token: " ++ tokenKindName st.getKind)
        st.getToken.loc) ∧
    parseAtom 5 (mkStream [tkAt .Comma 1]) =
      .err (.plainError "unexpected token: Comma") ∧
    parseStep 5 st = .err (.plainError "todo") := by
  have he : st.expect k =
      .error (.synError ("unexpected token: " ++ tokenKindName st.getKind)
        st.getToken.loc) := by
    unfold TokenStream.expect
    rw [if_pos h]
    rfl
  refine ⟨he, ?_, rfl, rfl⟩
  unfold TokenStream.nextWith
  rw [he]

/-- C5 amended witness: a stream whose current token is `Fn` while `Var`
is expected. -/
theorem error_kinds_amended_witness :
    (mkStream [tkAt .Fn 1]).expect .Var =
      .error (.synError "unexpected token: Fn" { line := 1, column := 1 }) ∧
    (mkStream [tkAt .Fn 1]).nextWith .Var =
      .error (.synError "unexpected token: Fn" { line := 1, column := 1 }) ∧
    parseAtom 5 (mkStream [tkAt .Comma 1]) =
      .err (.plainError "unexpected token: Comma") ∧
    parseStep 5 (mkStream [tkAt .Fn 1]) = .err (.plainError "todo") :=
  error_kinds_amended (mkStream [tkAt .Fn 1]) .Var (by decide)

set_option maxRecDepth 200000 in
/-- C6: on the tokens of `fn add(a, b) { var x = a + b; }` the parse does
not return the claimed `FunctionDecl` — the body step goes through the
unimplemented `parseStep`, which throws `Error('todo')`. -/
theorem fn_add_parse_hits_todo :
    parse 30 (mkStream addTokens) = .err (.plainError "todo") := rfl

/-- C7: `lookahead(k)` is a pure read: it returns a token while leaving
the cursor and the rest of the stream state exactly as they were (so two
consecutive calls with the same `k` return the same token), and past the
end of the token sequence it returns the EndOfStream sentinel instead of
failing. -/
theorem lookahead_pure_and_sentinel (st : TokenStream) (k : Nat) :
    lookaheadR k st = .ok (st.lookahead k) st ∧
    pbind (lookaheadR k st) (fun t1 s1 =>
      pbind (lookaheadR k s1) (fun t2 s2 => .ok (t1, t2) s2)) =
      .ok (st.lookahead k, st.lookahead k) st ∧
    (st.source.length ≤ st.index + k →
      st.lookahead k = TOKEN .EOF { line := -1, column := -1 }) := by
  refine ⟨rfl, rfl, fun h => ?_⟩
  unfold TokenStream.lookahead
  rw [if_neg (by omega)]
  rfl

/-- C7 witness: stream of one token, lookahead 5 positions. -/
theorem lookahead_pure_and_sentinel_witness :
    lookaheadR 5 (mkStream [identAt "x" 1]) =
      .ok ((mkStream [identAt "x" 1]).lookahead 5) (mkStream [identAt "x" 1]) ∧
    (mkStream [identAt "x" 1]).lookahead 5 =
      TOKEN .EOF { line := -1, column := -1 } :=
  ⟨(lookahead_pure_and_sentinel (mkStream [identAt "x" 1]) 5).1,
   (lookahead_pure_and_sentinel (mkStream [identAt "x" 1]) 5).2.2 (by decide)⟩

/-- C8 counterexample: on the empty stream the current kind is `EOF`, so
`nextWith(EOF)` finds matching kinds — yet the cursor does not move
forward by one: `advance()` is a no-op at the end, and the resulting
stream is the unchanged original with cursor 0. -/
theorem nextWith_match_at_end_does_not_advance :
    (mkStream []).getKind = .EOF ∧
    (mkStream []).nextWith .EOF = .ok (mkStream []) ∧
    (mkStream []).index = 0 :=
  ⟨rfl, rfl, rfl⟩

/-- C8 amended: `nextWith(kind)` on a kind mismatch raises the
syntax error built by `error(message, loc)` and consumes nothing (the
exception is raised by `expect` before `next()` runs, so the stream is
left as it was); on a match it is exactly `expect(kind)` followed by
`next()`, which moves the cursor forward by one whenever the cursor is
before the end and leaves the stream unchanged when the cursor is at the
end (which is the EndOfStream case, where the matched kind is `EOF`). -/
theorem nextWith_amended (st : TokenStream) (k : TokenKind) :
    (st.getKind ≠ k →
      st.nextWith k =
        .error (error ("unexpected token: " ++ tokenKindName st.getKind)
          st.getToken.loc)) ∧
    (st.getKind = k → st.nextWith k = .ok st.next) ∧
    (st.index < st.source.length → st.next.index = st.index + 1) ∧
    (st.source.length ≤ st.index → st.next = st) := by
  refine ⟨fun h => ?_, fun h => ?_, fun h => ?_, fun h => ?_⟩
  · unfold TokenStream.nextWith TokenStream.expect
    rw [if_pos h]
  · unfold TokenStream.nextWith TokenStream.expect
    rw [if_neg (by simp [h])]
  · unfold TokenStream.next
    rw [if_pos h]
  · unfold TokenStream.next
    rw [if_neg (by omega)]

/-- C8 amended witness: mismatch on a one-token stream (`Fn` seen, `Var`
expected), match on the same stream, and the two cursor cases. -/
theorem nextWith_amended_witness :
    (mkStream [tkAt .Fn 1]).nextWith .Var =
      .error (error "unexpected token: Fn" { line := 1, column := 1 }) ∧
    (mkStream [tkAt .Fn 1]).nextWith .Fn = .ok (mkStream [tkAt .Fn 1]).next ∧
    (mkStream [tkAt .Fn 1]).next.index = 1 ∧
    (mkStream []).next = mkStream [] :=
  ⟨(nextWith_amended (mkStream [tkAt .Fn 1]) .Var).1 (by decide),
   (nextWith_amended (mkStream [tkAt .Fn 1]) .Fn).2.1 (by decide),
   (nextWith_amended (mkStream [tkAt .Fn 1]) .Fn).2.2.1 (by decide),
   (nextWith_amended (mkStream []) .EOF).2.2.2 (by decide)⟩

/-- The cursor-mutating operations of the stream API (`getToken`,
`getKind`, `lookahead` and `expect` take the stream and return a value
without producing a new stream, so only `next` and `nextWith` can change
the cursor).  For `nextWith` a raised error leaves the stream as it was. -/
inductive StreamOp where
  | next
  | nextWith (k : TokenKind)

/-- Apply one mutating stream operation. -/
def applyOp (st : TokenStream) : StreamOp → TokenStream
  | .next => st.next
  | .nextWith k =>
    match st.nextWith k with
    | .ok s' => s'
    | .error _ => st

/-- Run a sequence of mutating stream operations. -/
def runOps (st : TokenStream) (ops : List StreamOp) : TokenStream :=
  ops.foldl applyOp st

lemma next_facts (st : TokenStream) :
    st.index ≤ st.next.index ∧ st.next.source = st.source ∧
      (st.index ≤ st.source.length → st.next.index ≤ st.source.length) := by
  unfold TokenStream.next
  by_cases h : st.index < st.source.length
  · rw [if_pos h]
    exact ⟨Nat.le_succ _, rfl, fun _ => h⟩
  · rw [if_neg h]
    exact ⟨le_refl _, rfl, fun h' => h'⟩

lemma applyOp_facts (st : TokenStream) (op : StreamOp) :
    st.index ≤ (applyOp st op).index ∧ (applyOp st op).source = st.source ∧
      (st.index ≤ st.source.length →
        (applyOp st op).index ≤ st.source.length) := by
  cases op with
  | next => exact next_facts st
  | nextWith k =>
    rcases h : st.expect k with e | u
    · simp [applyOp, TokenStream.nextWith, h]
    · simp only [applyOp, TokenStream.nextWith, h]
      exact next_facts st

lemma runOps_facts (ops : List StreamOp) :
    ∀ st : TokenStream,
      st.index ≤ (runOps st ops).index ∧ (runOps st ops).source = st.source ∧
        (st.index ≤ st.source.length →
          (runOps st ops).index ≤ st.source.length) := by
  induction ops with
  | nil => exact fun st => ⟨le_refl _, rfl, fun h => h⟩
  | cons op ops ih =>
    intro st
    have h1 := applyOp_facts st op
    have h2 := ih (applyOp st op)
    refine ⟨le_trans h1.1 h2.1, h2.2.1.trans h1.2.1, fun h => ?_⟩
    have := h2.2.2 (by rw [h1.2.1]; exact h1.2.2 h)
    rwa [h1.2.1] at this

/-- C9: `next()` moves the cursor forward by exactly one when the cursor
is before the end and is a no-op (never an error) at the end; under any
sequence of mutating stream operations the cursor never decreases and
stays within `0 ≤ cursor ≤ length`. -/
theorem advance_and_cursor_invariant (st : TokenStream) (ops : List StreamOp) :
    (st.index < st.source.length → st.next.index = st.index + 1) ∧
    (st.source.length ≤ st.index → st.next = st) ∧
    st.index ≤ (runOps st ops).index ∧
    (st.index ≤ st.source.length →
      (runOps st ops).index ≤ st.source.length) := by
  have h := runOps_facts ops st
  refine ⟨fun hlt => ?_, fun hge => ?_, h.1, h.2.2⟩
  · unfold TokenStream.next
    rw [if_pos hlt]
  · unfold TokenStream.next
    rw [if_neg (by omega)]

/-- C9 witness: one-token stream, advance twice. -/
theorem advance_and_cursor_invariant_witness :
    (mkStream [identAt "x" 1]).next.index = 1 ∧
    (mkStream []).next = mkStream [] ∧
    (mkStream [identAt "x" 1]).index ≤
      (runOps (mkStream [identAt "x" 1]) [.next, .next]).index ∧
    (runOps (mkStream [identAt "x" 1]) [.next, .next]).index ≤
      (mkStream [identAt "x" 1]).source.length :=
  ⟨(advance_and_cursor_invariant (mkStream [identAt "x" 1]) []).1 (by decide),
   (advance_and_cursor_invariant (mkStream []) []).2.1 (by decide),
   (advance_and_cursor_invariant (mkStream [identAt "x" 1]) [.next, .next]).2.2.1,
   (advance_and_cursor_invariant (mkStream [identAt "x" 1]) [.next, .next]).2.2.2
     (by decide)⟩

/-- C10: `getToken()` returns the same token as `lookahead(0)` — the token
at the cursor when the cursor is before the end, and the EndOfStream
sentinel with location `{line: -1, column: -1}` when the cursor is at or
past the end. -/
theorem getToken_is_lookahead_zero (st : TokenStream) :
    st.getToken = st.lookahead 0 ∧
    (st.index < st.source.length →
      st.getToken = st.source.getD st.index eofToken) ∧
    (st.source.length ≤ st.index →
      st.getToken = TOKEN .EOF { line := -1, column := -1 }) := by
  unfold TokenStream.getToken TokenStream.lookahead
  rw [Nat.add_zero]
  by_cases h : st.index < st.source.length
  · rw [if_pos h]
    exact ⟨rfl, fun _ => rfl, fun h' => absurd h (by omega)⟩
  · rw [if_neg h]
    exact ⟨rfl, fun h' => absurd h' h, fun _ => rfl⟩

/-- C10 witness: a one-token stream before the end, the same stream with
the cursor at the end. -/
theorem getToken_is_lookahead_zero_witness :
    (mkStream [identAt "x" 1]).getToken = (mkStream [identAt "x" 1]).lookahead 0 ∧
    (mkStream [identAt "x" 1]).getToken =
      (mkStream [identAt "x" 1]).source.getD 0 eofToken ∧
    ({ source := [identAt "x" 1], index := 1 } : TokenStream).getToken =
      TOKEN .EOF { line := -1, column := -1 } :=
  ⟨(getToken_is_lookahead_zero (mkStream [identAt "x" 1])).1,
   (getToken_is_lookahead_zero (mkStream [identAt "x" 1])).2.1 (by decide),
   (getToken_is_lookahead_zero
     ({ source := [identAt "x" 1], index := 1 } : TokenStream)).2.2 (by decide)⟩

end Holo
